import Mathlib

/-!
Verification development for the m3 repository: shallow Lean embeddings of
the SQL safety validator (`MIMIC._is_safe_query`), the rate limiter
(`Auth._check_rate_limit`), the pipeline save/load round trip
(`M3.save`/`M3.load`, `MIMIC.to_dict`/`from_dict`), the DuckDB view naming
(`_create_duckdb_with_views`), the CSV ETL loop
(`DataIO._etl_csv_collection_to_sqlite`), the backend result formatting
(`SQLiteBackend._format_result`, `BigQueryBackend._format_result`),
`get_icu_stays` and `M3Config.get_env_var`, together with theorems that
settle the specification's claims about them.
-/

namespace M3Spec

/-! ## Character and list-of-character utilities

Python string operations (`strip`, `upper`, `lower`, `replace`, `in`,
`startswith`, `endswith`) are modelled on `List Char`. -/

/-- Python `str.strip()` whitespace set (ASCII range, as used by SQL text). -/
def isPySpace (c : Char) : Bool :=
  c = ' ' || c = '\t' || c = '\n' || c = '\r' || c = '\x0b' || c = '\x0c'

/-- Python `str.strip()`: drop whitespace from both ends. -/
def pyStrip (cs : List Char) : List Char :=
  ((cs.dropWhile isPySpace).reverse.dropWhile isPySpace).reverse

/-- Python `str.upper()` on ASCII text. -/
def pyUpper (cs : List Char) : List Char :=
  cs.map Char.toUpper

/-- Python `str.lower()` on ASCII text. -/
def pyLower (cs : List Char) : List Char :=
  cs.map Char.toLower

/-- Whether `pat` is a prefix of `s` (Python `str.startswith`). -/
def isPrefixL : List Char → List Char → Bool
  | [], _ => true
  | _ :: _, [] => false
  | p :: ps, c :: cs => p = c && isPrefixL ps cs

/-- Whether `pat` occurs as a contiguous substring of `s` (Python `in`). -/
def isSubstrL (pat : List Char) : List Char → Bool
  | [] => pat.isEmpty
  | c :: cs => isPrefixL pat (c :: cs) || isSubstrL pat cs

/-! ## SQL safety validator

`MIMIC._is_safe_query` (src/m3/tools/mimic/mimic.py) first parses the
query with `sqlparse` and reads off the number of top-level statements and
the first statement's `get_type()`. The parser is an external library, so
its output is an explicit parameter of the embedding. -/

/-- The outcome of `sqlparse.parse(sql_query.strip())`: the number of
statements returned and `get_type()` of the first one (a string such as
"SELECT", "INSERT" or "UNKNOWN"; `sqlparse` reports "UNKNOWN" whenever the
first token is not a DML/DDL keyword, e.g. for PRAGMA statements, as the
repository's own comment in src/m3/mcp_server.py records). -/
structure ParsedSQL where
  stmtCount : Nat
  stmtType : String

/-- Modelled from the spec: the `dangerous_keywords` deny-list of
configurations/security.yaml (the YAML file is not among the staged
sources); the spec's list coincides with the hard-coded set in
`src/m3/mcp_server.py`. -/
def dangerous_keywords : List (List Char) :=
  ["INSERT", "UPDATE", "DELETE", "DROP", "CREATE", "ALTER", "TRUNCATE",
   "REPLACE", "MERGE", "EXEC", "EXECUTE"].map String.data

/-- Modelled from the spec: the `injection_patterns` list of
configurations/security.yaml, identical to the hard-coded list in
`src/m3/mcp_server.py`. -/
def injection_patterns : List (List Char × String) :=
  [("1=1".data, "Classic injection pattern"),
   ("OR 1=1".data, "Boolean injection pattern"),
   ("AND 1=1".data, "Boolean injection pattern"),
   ("OR '1'='1'".data, "String injection pattern"),
   ("AND '1'='1'".data, "String injection pattern"),
   ("WAITFOR".data, "Time-based injection"),
   ("SLEEP(".data, "Time-based injection"),
   ("BENCHMARK(".data, "Time-based injection"),
   ("LOAD_FILE(".data, "File access injection"),
   ("INTO OUTFILE".data, "File write injection"),
   ("INTO DUMPFILE".data, "File write injection")]

/-- Modelled from the spec: the `suspicious_names` list of
configurations/security.yaml, identical to the hard-coded list in
`src/m3/mcp_server.py`. -/
def suspicious_names : List (List Char) :=
  ["PASSWORD", "ADMIN", "USER", "LOGIN", "AUTH", "TOKEN", "CREDENTIAL",
   "SECRET", "KEY", "HASH", "SALT", "SESSION", "COOKIE"].map String.data

/-- The padded keyword search of `_is_safe_query`: Python
`f" {keyword} " in f" {sql_upper} "`. -/
def keywordHit (sqlUpper : List Char) (kw : List Char) : Bool :=
  isSubstrL (' ' :: (kw ++ [' '])) (' ' :: (sqlUpper ++ [' ']))

/-- Shallow embedding of `MIMIC._is_safe_query`
(src/m3/tools/mimic/mimic.py, lines 473-505). The `sqlparse` outcome on
the stripped query is passed in as `p`. -/
def is_safe_query (sqlQuery : String) (p : ParsedSQL) : Bool × String :=
  let stripped := pyStrip sqlQuery.data
  if stripped = [] then (false, "Empty query")
  else if p.stmtCount = 0 then (false, "Invalid SQL syntax")
  else if 1 < p.stmtCount then (false, "Multiple statements not allowed")
  else if p.stmtType ≠ "SELECT" ∧ p.stmtType ≠ "UNKNOWN" then
    (false, "Only SELECT and PRAGMA queries allowed")
  else
    let sqlUpper := pyUpper stripped
    if isPrefixL "PRAGMA".data sqlUpper then (true, "Safe PRAGMA statement")
    else
      match dangerous_keywords.find? (keywordHit sqlUpper) with
      | some kw => (false, "Write operation not allowed: " ++ String.mk kw)
      | none =>
        match injection_patterns.find? (fun pd => isSubstrL (pyUpper pd.1) sqlUpper) with
        | some pd => (false, "Injection pattern detected: " ++ pd.2)
        | none =>
          match suspicious_names.find? (fun n => isSubstrL (pyUpper n) sqlUpper) with
          | some n =>
            (false, "Suspicious identifier detected: " ++ String.mk n ++ " (not medical data)")
          | none => (true, "Safe")

/-! ## Pipeline serialization (`M3.save` / `M3.load`)

`M3.save` writes `{config: config.to_dict(), tools: [{type, params}...]}`
to JSON and `M3.load` rehydrates it (src/m3/m3.py, lines 148-195), with
`M3Config.to_dict`/`from_dict` (src/m3/core/config.py),
`MIMIC.to_dict`/`from_dict` (src/m3/tools/mimic/mimic.py) and the
backend registry (src/m3/core/tool/backend/registry.py). The JSON
document is modelled by `JValue`; lookup failures (Python `KeyError`,
unknown registry tags, the constructor's backend-key validation) are
`Option` failures. -/

/-- A JSON value as the pipeline file uses it. -/
inductive JValue where
  | str (s : String)
  | arr (items : List JValue)
  | obj (fields : List (String × JValue))

/-- Mapping a fallible parser over a list, failing on the first failure
(the behaviour of the Python loops that raise). -/
def mapMO {α β : Type} (f : α → Option β) : List α → Option (List β)
  | [] => some []
  | a :: as =>
    match f a with
    | some b =>
      match mapMO f as with
      | some bs => some (b :: bs)
      | none => none
    | none => none

/-- JSON object key lookup (keys are unique in a parsed JSON object). -/
def jLookup (fields : List (String × JValue)) (k : String) : Option JValue :=
  match fields with
  | [] => none
  | (k', v) :: rest => if k' = k then some v else jLookup rest k

/-- Look up a key expected to hold a string. -/
def jGetStr (fields : List (String × JValue)) (k : String) : Option String :=
  match jLookup fields k with
  | some (JValue.str s) => some s
  | _ => none

/-- Look up a key expected to hold an array. -/
def jGetArr (fields : List (String × JValue)) (k : String) :
    Option (List JValue) :=
  match jLookup fields k with
  | some (JValue.arr l) => some l
  | _ => none

/-- Look up a key expected to hold an object. -/
def jGetObj (fields : List (String × JValue)) (k : String) :
    Option (List (String × JValue)) :=
  match jLookup fields k with
  | some (JValue.obj l) => some l
  | _ => none

/-- The two backend variants the registry knows
(`BACKEND_REGISTRY = {"sqlite": SQLiteBackend, "bigquery": BigQueryBackend}`),
each carrying its serialized connection parameter. -/
inductive Backend where
  | sqlite (path : String)
  | bigquery (project : String)
deriving DecidableEq

/-- `b.__class__.__name__.lower().replace("backend", "")`, the key under
which `MIMIC._set_backends` stores a backend. -/
def backendTag : Backend → String
  | Backend.sqlite _ => "sqlite"
  | Backend.bigquery _ => "bigquery"

/-- `SQLiteBackend.to_dict` / `BigQueryBackend.to_dict`. -/
def backendParams : Backend → JValue
  | Backend.sqlite p => JValue.obj [("path", JValue.str p)]
  | Backend.bigquery pr => JValue.obj [("project", JValue.str pr)]

/-- `BACKEND_REGISTRY[type].from_dict(params)`: unknown tags and missing
parameters fail. -/
def backend_from_dict (ty : String) (params : JValue) : Option Backend :=
  if ty = "sqlite" then
    match params with
    | JValue.obj fs =>
      match jLookup fs "path" with
      | some (JValue.str p) => some (Backend.sqlite p)
      | _ => none
    | _ => none
  else if ty = "bigquery" then
    match params with
    | JValue.obj fs =>
      match jLookup fs "project" with
      | some (JValue.str pr) => some (Backend.bigquery pr)
      | _ => none
    | _ => none
  else none

/-- Python dict assignment `d[k] = v`: replace in place when the key is
present, append otherwise. -/
def dictInsert (d : List (String × Backend)) (k : String) (v : Backend) :
    List (String × Backend) :=
  if d.any (fun p => decide (p.1 = k)) then
    d.map (fun p => if p.1 = k then (k, v) else p)
  else d ++ [(k, v)]

/-- `MIMIC._set_backends`: `{tag(b): b for b in backends}` as an ordered
key-unique association list. -/
def backendsDict (bs : List Backend) : List (String × Backend) :=
  bs.foldl (fun d b => dictInsert d (backendTag b) b) []

/-- The MIMIC tool's serializable state: the constructor arguments
`backend_key` and `backends` (its other fields are rebuilt on load). -/
structure MimicTool where
  backendKey : String
  backends : List Backend

/-- The invariant `MIMIC._validate_backend_key` establishes at
construction: the backend key names an entry of the backends dict. -/
def mimicWF (t : MimicTool) : Prop :=
  (backendsDict t.backends).any (fun p => decide (p.1 = t.backendKey)) = true

/-- `MIMIC.to_dict` (mimic.py, lines 46-52). -/
def mimic_to_dict (t : MimicTool) : JValue :=
  JValue.obj
    [("backend_key", JValue.str t.backendKey),
     ("backends", JValue.arr ((backendsDict t.backends).map (fun kv =>
       JValue.obj [("type", JValue.str kv.1), ("params", backendParams kv.2)])))]

/-- One entry of the `backends` list as `MIMIC.from_dict` reads it. -/
def parseBackendEntry (bd : JValue) : Option Backend :=
  match bd with
  | JValue.obj bfs =>
    (jGetStr bfs "type").bind fun ty =>
    (jLookup bfs "params").bind fun ps =>
    backend_from_dict ty ps
  | _ => none

/-- `MIMIC.from_dict` (mimic.py, lines 54-71): rebuild every backend via
the registry, then construct, which re-derives the backends dict and
validates the backend key. -/
def mimic_from_dict (j : JValue) : Option MimicTool :=
  match j with
  | JValue.obj fs =>
    (jGetArr fs "backends").bind fun bds =>
    (mapMO parseBackendEntry bds).bind fun blist =>
    (jGetStr fs "backend_key").bind fun key =>
    if (backendsDict blist).any (fun p => decide (p.1 = key)) then
      some (MimicTool.mk key blist)
    else none
  | _ => none

/-- The pipeline config's serializable state. -/
structure M3ConfigModel where
  logLevel : String
  envVars : List (String × String)

/-- The level names Python `logging` accepts as strings; `M3Config`'s
constructor raises on any other value. -/
def validLogLevel (s : String) : Bool :=
  ["CRITICAL", "FATAL", "ERROR", "WARN", "WARNING", "INFO", "DEBUG",
   "NOTSET"].contains s

/-- `M3Config.to_dict` (config.py, lines 27-31). -/
def config_to_dict (c : M3ConfigModel) : JValue :=
  JValue.obj
    [("log_level", JValue.str c.logLevel),
     ("env_vars", JValue.obj (c.envVars.map (fun kv => (kv.1, JValue.str kv.2))))]

/-- One `env_vars` entry: values are strings (`Dict[str, str]`). -/
def parseEnvEntry (kv : String × JValue) : Option (String × String) :=
  match kv.2 with
  | JValue.str s => some (kv.1, s)
  | _ => none

/-- `M3Config.from_dict` (config.py, lines 33-41) followed by the
constructor's log-level validation. -/
def config_from_dict (j : JValue) : Option M3ConfigModel :=
  match j with
  | JValue.obj fs =>
    (jGetStr fs "log_level").bind fun lvl =>
    (jGetObj fs "env_vars").bind fun efs =>
    (mapMO parseEnvEntry efs).bind fun evs =>
    if validLogLevel lvl then some (M3ConfigModel.mk lvl evs) else none
  | _ => none

/-- The pipeline: a config, its tools (the registry's serializable tool
is MIMIC), and the built flag. -/
structure M3Pipeline where
  config : M3ConfigModel
  tools : List MimicTool
  built : Bool

/-- One entry of the saved `tools` list:
`{"type": tool.__class__.__name__.lower(), "params": tool.to_dict()}`. -/
def toolEntryJ (t : MimicTool) : JValue :=
  JValue.obj [("type", JValue.str "mimic"), ("params", mimic_to_dict t)]

/-- `M3.save` (m3.py, lines 148-168): requires the pipeline to be built
and writes the config and tool entries. -/
def m3_save (p : M3Pipeline) : Option JValue :=
  if p.built then
    some (JValue.obj
      [("config", config_to_dict p.config),
       ("tools", JValue.arr (p.tools.map toolEntryJ))])
  else none

/-- `ALL_TOOLS` lookup: the tool registry resolves the tag "mimic" to
`MIMIC.from_dict`; an unknown tag is a validation error. -/
def toolRegistry (ty : String) : Option (JValue → Option MimicTool) :=
  if ty = "mimic" then some mimic_from_dict else none

/-- One entry of the loaded `tools` list. -/
def parseToolEntry (tj : JValue) : Option MimicTool :=
  match tj with
  | JValue.obj tfs =>
    (jGetStr tfs "type").bind fun ty =>
    (jLookup tfs "params").bind fun ps =>
    (toolRegistry ty).bind fun fd => fd ps
  | _ => none

/-- `data.get("tools", [])`: absent means no tools, present must be the
saved array. -/
def jGetToolsField (fields : List (String × JValue)) : Option (List JValue) :=
  match jLookup fields "tools" with
  | some (JValue.arr l) => some l
  | some _ => none
  | none => some []

/-- `M3.load` (m3.py, lines 170-195): parse the config, rehydrate every
tool through the registry, and mark the pipeline built. -/
def m3_load (j : JValue) : Option M3Pipeline :=
  match j with
  | JValue.obj fs =>
    (jLookup fs "config").bind fun cj =>
    (config_from_dict cj).bind fun c =>
    (jGetToolsField fs).bind fun ts =>
    (mapMO parseToolEntry ts).bind fun tools =>
    some (M3Pipeline.mk c tools true)
  | _ => none

/-! ## Backend result formatting

`SQLiteBackend._format_result` and `BigQueryBackend._format_result`
(src/m3/core/tool/backend/backends/sqlite.py and bigquery.py) format a
pandas DataFrame. The DataFrame is modelled as its list of rows and
pandas `to_string(index=False)` as an abstract rendering function. -/

/-- Shallow embedding of `SQLiteBackend._format_result` (sqlite.py,
lines 48-56); `render` stands for `DataFrame.to_string(index=False)`. -/
def sqlite_format_result (render : List (List String) → String)
    (df : List (List String)) : String :=
  if df.isEmpty then "No results found"
  else if 50 < df.length then
    render (df.take 50) ++ "\n... (" ++ toString df.length ++ " total rows, showing first 50)"
  else render df

/-- Shallow embedding of `BigQueryBackend._format_result` (bigquery.py,
lines 57-65); textually identical to the SQLite variant. -/
def bigquery_format_result (render : List (List String) → String)
    (df : List (List String)) : String :=
  if df.isEmpty then "No results found"
  else if 50 < df.length then
    render (df.take 50) ++ "\n... (" ++ toString df.length ++ " total rows, showing first 50)"
  else render df

/-! ## Convenience accessor `get_icu_stays`

`get_icu_stays` (src/m3/tools/mimic/mimic.py, lines 304-331) and
`validate_limit` (src/m3/tools/mimic/components/utils.py). The model
returns either the error string produced before any query is issued or
the SQL text handed to the backend. -/

/-- Shallow embedding of `validate_limit` (utils.py, lines 87-88); the
`isinstance(limit, int)` conjunct is carried by the `Int` type. -/
def validate_limit (limit : Int) : Bool :=
  decide (0 < limit) && decide (limit ≤ 1000)

/-- The error string `get_icu_stays` returns on an invalid limit. -/
def invalidLimitMsg : String :=
  "Error: Invalid limit. Must be a positive integer between 1 and 1000."

/-- Shallow embedding of `get_icu_stays` up to the point where a query is
issued: `.error` is the early-returned error string, `.ok` the SQL text
passed to the backend. Python's `if patient_id:` is falsy for `None` and
for `0`. -/
def get_icu_stays (patientId : Option Int) (limit : Int)
    (icustaysTable : String) : Except String String :=
  if !(validate_limit limit) then Except.error invalidLimitMsg
  else
    match patientId with
    | some pid =>
      if pid ≠ 0 then
        Except.ok ("SELECT * FROM " ++ icustaysTable ++ " WHERE subject_id = " ++ toString pid)
      else
        Except.ok ("SELECT * FROM " ++ icustaysTable ++ " LIMIT " ++ toString limit)
    | none =>
      Except.ok ("SELECT * FROM " ++ icustaysTable ++ " LIMIT " ++ toString limit)

/-! ## DuckDB view naming for Parquet files

`_create_duckdb_with_views` (src/m3/data_io.py) derives one view name per
Parquet file from its path relative to the Parquet root:
`parts = list(rel.parent.parts) + [rel.stem]` followed by
`"_".join(p.lower().replace("-", "_").replace(".", "_") for p in parts if p != ".")`. -/

/-- Index of the last '.' in a list of characters, if any. -/
def lastDotIdx : List Char → Option Nat
  | [] => none
  | c :: cs =>
    match lastDotIdx cs with
    | some i => some (i + 1)
    | none => if c = '.' then some 0 else none

/-- `pathlib.PurePath.stem`: the file name with its last suffix removed;
a dot at position 0 (hidden file) or at the very end does not count as a
suffix separator. -/
def pathStem (cs : List Char) : List Char :=
  match lastDotIdx cs with
  | some i => if 0 < i ∧ i < cs.length - 1 then cs.take i else cs
  | none => cs

/-- The character substitution `.replace("-", "_").replace(".", "_")`. -/
def replDashDot (c : Char) : Char :=
  if c = '-' then '_' else if c = '.' then '_' else c

/-- One path part as the view-name derivation cleans it:
`p.lower().replace("-", "_").replace(".", "_")`. -/
def cleanPart (p : List Char) : List Char :=
  (pyLower p).map replDashDot

/-- Python `"_".join(...)`. -/
def joinUnderscoreL : List (List Char) → List Char
  | [] => []
  | [p] => p
  | p :: ps => p ++ '_' :: joinUnderscoreL ps

/-- Shallow embedding of the view-name derivation of
`_create_duckdb_with_views` for a Parquet file at
`parentParts.../fileName` relative to the Parquet root. -/
def duckdb_view_name (parentParts : List (List Char)) (fileName : List Char) :
    List Char :=
  joinUnderscoreL
    (((parentParts ++ [pathStem fileName]).filter
      (fun p => decide (p ≠ ['.']))).map cleanPart)

/-- Whether `suf` is a suffix of `cs` (Python `str.endswith`). -/
def isSuffixL (suf cs : List Char) : Bool :=
  isPrefixL suf.reverse cs.reverse

/-- Drop a given suffix from a list of characters when present. -/
def dropSuffixL (suf cs : List Char) : List Char :=
  if isSuffixL suf cs then cs.take (cs.length - suf.length) else cs

/-- The view-name rule as the specification words it: lowercase the path
parts, join them with '_', drop the `.parquet` suffix, and replace '-'
and '.' with '_'. -/
def spec_view_name (parentParts : List (List Char)) (fileName : List Char) :
    List Char :=
  (dropSuffixL ".parquet".data
    (joinUnderscoreL ((parentParts ++ [fileName]).map pyLower))).map replDashDot

/-! ## CSV-to-SQLite conversion stage

`DataIO._etl_csv_collection_to_sqlite`
(src/m3/tools/mimic/components/data_io.py, lines 154-202): the loop over
discovered files. Each file's conversion outcome (the
`dataframe.write_database` try block) is an oracle `Bool` attached to the
file. -/

/-- The observable outcome of the ETL stage: which files the loop
attempted, how many loaded, which errored, and the returned success flag. -/
structure EtlResult where
  attempted : List String
  loadedCount : Nat
  errors : List String
  ok : Bool

/-- The body of the `for csv_file_path in csv_file_paths:` loop of
`_etl_csv_collection_to_sqlite`: every file is attempted; a failure is
recorded in `files_with_errors` and the loop continues. -/
def etlLoop : List (String × Bool) → List String × Nat × List String
  | [] => ([], 0, [])
  | f :: fs =>
    (f.1 :: (etlLoop fs).1,
     (if f.2 then 1 else 0) + (etlLoop fs).2.1,
     if f.2 then (etlLoop fs).2.2 else f.1 :: (etlLoop fs).2.2)

/-- Shallow embedding of `_etl_csv_collection_to_sqlite`: an empty file
list returns failure at once; otherwise the loop runs over every file and
the stage reports success iff `successfully_loaded_count` equals the file
count. -/
def etl_csv_collection_to_sqlite (files : List (String × Bool)) : EtlResult :=
  if files.isEmpty then ⟨[], 0, [], false⟩
  else
    ⟨(etlLoop files).1, (etlLoop files).2.1, (etlLoop files).2.2,
     (etlLoop files).2.1 == files.length⟩

/-! ## Per-subject sliding-window rate limiter

`Auth._check_rate_limit` and `Auth._set_rate_limit`
(src/m3/tools/mimic/components/auth.py, lines 164-173 and 209-213).
Timestamps (`time.time()`) are modelled as rationals; the cache
`_rate_limit_cache` as an association list from subject to its timestamp
list. -/

/-- Default `rate_limit_requests` set by `Auth._set_rate_limit`. -/
def rate_limit_requests : Nat := 100

/-- Default `rate_limit_window` (seconds) set by `Auth._set_rate_limit`. -/
def rate_limit_window : ℚ := 3600

/-- The per-subject cache `_rate_limit_cache`. -/
abbrev RateCache := List (String × List ℚ)

/-- Python `self._rate_limit_cache.get(user_id, [])`. -/
def cacheGet (c : RateCache) (sub : String) : List ℚ :=
  match c with
  | [] => []
  | (s, l) :: rest => if s = sub then l else cacheGet rest sub

/-- Python `self._rate_limit_cache[user_id] = l` (update in place, append
if the key is new). -/
def cacheSet (c : RateCache) (sub : String) (l : List ℚ) : RateCache :=
  match c with
  | [] => [(sub, l)]
  | (s, l') :: rest =>
    if s = sub then (s, l) :: rest else (s, l') :: cacheSet rest sub l

/-- The pruning step `[t for t in user_requests if t > window_start]` with
`window_start = current_time - rate_limit_window`. -/
def pruneRequests (now : ℚ) (l : List ℚ) : List ℚ :=
  l.filter (fun t => now - rate_limit_window < t)

/-- The per-subject core of `_check_rate_limit` on that subject's list:
prune, reject when the limit is reached (before appending), otherwise
append `now`. -/
def check_rate_limit_list (l : List ℚ) (now : ℚ) : Except String (List ℚ) :=
  let userRequests := pruneRequests now l
  if rate_limit_requests ≤ userRequests.length then
    Except.error "Rate limit exceeded"
  else Except.ok (userRequests ++ [now])

/-- Shallow embedding of `Auth._check_rate_limit`: read the subject's
list, run the core check, and write the updated list back only on
success (the exception is raised before the cache assignment). -/
def check_rate_limit (c : RateCache) (sub : String) (now : ℚ) :
    Except String RateCache :=
  match check_rate_limit_list (cacheGet c sub) now with
  | Except.error e => Except.error e
  | Except.ok l => Except.ok (cacheSet c sub l)

/-- One validation attempt as a state transition: on rejection the cache
is left exactly as it was. -/
def rateStep (c : RateCache) (sub : String) (now : ℚ) : Bool × RateCache :=
  match check_rate_limit c sub now with
  | Except.error _ => (false, c)
  | Except.ok c' => (true, c')

/-- The pass/fail outcomes of a sequence of validation attempts. -/
def rateRunResults (c : RateCache) : List (String × ℚ) → List Bool
  | [] => []
  | (s, t) :: rest =>
    (rateStep c s t).1 :: rateRunResults (rateStep c s t).2 rest

/-- The cache after a sequence of validation attempts. -/
def rateRunCache (c : RateCache) : List (String × ℚ) → RateCache
  | [] => c
  | (s, t) :: rest => rateRunCache (rateStep c s t).2 rest

/-! ## Config environment lookup

`M3Config.get_env_var` (src/m3/core/config.py, lines 43-53). The explicit
`env_vars` map and the process environment are association lists; `.error`
models the raised `M3ConfigError`. -/

/-- First-match lookup in an association list (Python `dict.get`). -/
def lookupStr (l : List (String × String)) (k : String) : Option String :=
  match l with
  | [] => none
  | (k', v) :: rest => if k' = k then some v else lookupStr rest k

/-- Shallow embedding of `M3Config.get_env_var`: resolves
`env_vars.get(key, os.getenv(key, default))`, raises only when the
resolved value is `None` and `raise_if_missing` is set, and otherwise
returns `value or ""`. -/
def get_env_var (envVars osEnv : List (String × String)) (key : String)
    (default : Option String) (raiseIfMissing : Bool) : Except String String :=
  let value : Option String :=
    match lookupStr envVars key with
    | some v => some v
    | none =>
      match lookupStr osEnv key with
      | some v => some v
      | none => default
  match value with
  | none =>
    if raiseIfMissing then Except.error ("Missing required env var: " ++ key)
    else Except.ok ""
  | some v => Except.ok v

end M3Spec

namespace M3Spec

/-! ## Theorems for claims C1 and C2 (the SQL validator) -/

/-- Helper: an existential witness in a list makes `find?` succeed. -/
theorem find?_eq_some_of_exists {α : Type} (l : List α) (p : α → Bool)
    (x : α) (hx : x ∈ l) (hpx : p x = true) : ∃ y, l.find? p = some y := by
  induction l with
  | nil => cases hx
  | cons a as ih =>
    by_cases ha : p a = true
    · exact ⟨a, by simp [List.find?, ha]⟩
    · rcases List.mem_cons.mp hx with rfl | hxs
      · exact absurd hpx ha
      · rcases ih hxs with ⟨y, hy⟩
        refine ⟨y, ?_⟩
        simp only [List.find?]
        rw [Bool.eq_false_iff.mpr ha] at *
        simpa [List.find?, Bool.eq_false_iff.mpr ha] using hy

/-- C1 counterexample: the input "FOO BAR" parses (per sqlparse) to exactly
one statement of type UNKNOWN, is not classified SELECT, its trimmed
upper-cased form does not start with PRAGMA, and yet the validator accepts
it, so the claim as stated is false. -/
theorem is_safe_query_c1_counterexample :
    (ParsedSQL.mk 1 "UNKNOWN").stmtCount = 1 ∧
    (ParsedSQL.mk 1 "UNKNOWN").stmtType ≠ "SELECT" ∧
    isPrefixL "PRAGMA".data (pyUpper (pyStrip "FOO BAR".data)) = false ∧
    (is_safe_query "FOO BAR" (ParsedSQL.mk 1 "UNKNOWN")).1 = true := by
  refine ⟨rfl, by decide, by decide, by decide⟩

/-- C1 (amended): for a parse that yields exactly one statement, if the
statement is classified neither SELECT nor UNKNOWN, the validator rejects.
(Statements classified UNKNOWN fall through to the keyword screens and may
be accepted even without a PRAGMA prefix.) -/
theorem is_safe_query_only_select_or_unknown (q : String) (p : ParsedSQL)
    (hc : p.stmtCount = 1) (hsel : p.stmtType ≠ "SELECT")
    (hunk : p.stmtType ≠ "UNKNOWN") :
    (is_safe_query q p).1 = false := by
  unfold is_safe_query
  by_cases hs : pyStrip q.data = []
  · simp [hs]
  · simp only [hs, if_false, hc]
    norm_num
    simp [hsel, hunk]

/-- C1 witness: the amended theorem applied at the concrete input
"DROP TABLE x" with sqlparse outcome (1 statement, type "DROP"). -/
theorem is_safe_query_c1_witness :
    (1 : Nat) = 1 ∧ ("DROP" : String) ≠ "SELECT" ∧ ("DROP" : String) ≠ "UNKNOWN" ∧
    (is_safe_query "DROP TABLE x" (ParsedSQL.mk 1 "DROP")).1 = false :=
  ⟨rfl, by decide, by decide,
    is_safe_query_only_select_or_unknown "DROP TABLE x" (ParsedSQL.mk 1 "DROP")
      rfl (by decide) (by decide)⟩

/-- C2 counterexample: "PRAGMA DELETE x" contains the deny-listed keyword
DELETE surrounded by whitespace, yet the validator returns (true, _)
because the PRAGMA-prefix branch accepts before the keyword scan runs
(sqlparse classifies the single PRAGMA-led statement as UNKNOWN). -/
theorem is_safe_query_c2_counterexample :
    keywordHit (pyUpper (pyStrip "PRAGMA DELETE x".data)) "DELETE".data = true ∧
    "DELETE".data ∈ dangerous_keywords ∧
    is_safe_query "PRAGMA DELETE x" (ParsedSQL.mk 1 "UNKNOWN") =
      (true, "Safe PRAGMA statement") := by
  refine ⟨by decide, by decide, by decide⟩

/-- C2 (amended): whenever the trimmed upper-cased query does not start
with PRAGMA, a deny-listed write keyword surrounded by whitespace forces a
reject, whatever the parse outcome was. -/
theorem is_safe_query_denylist_reject (q : String) (p : ParsedSQL)
    (hkw : ∃ kw ∈ dangerous_keywords, keywordHit (pyUpper (pyStrip q.data)) kw = true)
    (hpragma : isPrefixL "PRAGMA".data (pyUpper (pyStrip q.data)) = false) :
    (is_safe_query q p).1 = false := by
  unfold is_safe_query
  by_cases hs : pyStrip q.data = []
  · simp [hs]
  · rcases hkw with ⟨kw, hkmem, hkhit⟩
    rcases find?_eq_some_of_exists dangerous_keywords
      (keywordHit (pyUpper (pyStrip q.data))) kw hkmem hkhit with ⟨y, hy⟩
    by_cases hc0 : p.stmtCount = 0
    · simp [hs, hc0]
    · by_cases hc1 : 1 < p.stmtCount
      · simp [hs, hc0, hc1]
      · by_cases hty : p.stmtType ≠ "SELECT" ∧ p.stmtType ≠ "UNKNOWN"
        · simp [hs, hc0, hc1, hty]
        · simp [hs, hc0, hc1, hty, hpragma, hy]

/-- C2 witness: the amended theorem applied at the concrete query
"SELECT * FROM t DELETE" (one statement of type SELECT). -/
theorem is_safe_query_c2_witness :
    (∃ kw ∈ dangerous_keywords,
      keywordHit (pyUpper (pyStrip "SELECT * FROM t DELETE".data)) kw = true) ∧
    (is_safe_query "SELECT * FROM t DELETE" (ParsedSQL.mk 1 "SELECT")).1 = false :=
  ⟨⟨"DELETE".data, by decide, by decide⟩,
    is_safe_query_denylist_reject "SELECT * FROM t DELETE" (ParsedSQL.mk 1 "SELECT")
      ⟨"DELETE".data, by decide, by decide⟩ (by decide)⟩

/-! ## Theorems for claim C3 (pipeline save/load round trip) -/

/-- Helper: each registered backend's `from_dict` inverts its `to_dict`
under its registry tag. -/
theorem backend_from_dict_tag (b : Backend) :
    backend_from_dict (backendTag b) (backendParams b) = some b := by
  cases b <;> rfl

/-- Helper: the serialized `env_vars` object parses back to itself. -/
theorem mapMO_parseEnvEntry (l : List (String × String)) :
    mapMO parseEnvEntry (l.map (fun kv => (kv.1, JValue.str kv.2))) = some l := by
  induction l with
  | nil => rfl
  | cons kv rest ih =>
    simp only [List.map_cons, mapMO, parseEnvEntry, Option.some_bind, ih]

/-- Helper: the serialized config parses back to itself when its log
level is one Python `logging` accepts. -/
theorem config_roundtrip (c : M3ConfigModel)
    (h : validLogLevel c.logLevel = true) :
    config_from_dict (config_to_dict c) = some c := by
  show ((mapMO parseEnvEntry (c.envVars.map (fun kv => (kv.1, JValue.str kv.2)))).bind
    fun evs =>
      if validLogLevel c.logLevel then some (M3ConfigModel.mk c.logLevel evs)
      else none) = some c
  rw [mapMO_parseEnvEntry]
  simp [h]

/-- Helper: `dictInsert` with a backend's own tag keeps every stored key
equal to its value's tag. -/
theorem dictInsert_keysMatch (d : List (String × Backend)) (b : Backend)
    (h1 : ∀ kv ∈ d, kv.1 = backendTag kv.2) :
    ∀ kv ∈ dictInsert d (backendTag b) b, kv.1 = backendTag kv.2 := by
  intro kv hkv
  unfold dictInsert at hkv
  by_cases hany : d.any (fun p => decide (p.1 = backendTag b)) = true
  · rw [if_pos hany] at hkv
    rcases List.mem_map.mp hkv with ⟨kv0, hkv0, hmap⟩
    by_cases hk : kv0.1 = backendTag b
    · rw [if_pos hk] at hmap
      subst hmap
      rfl
    · rw [if_neg hk] at hmap
      subst hmap
      exact h1 kv0 hkv0
  · rw [if_neg hany] at hkv
    rcases List.mem_append.mp hkv with hin | hin
    · exact h1 kv hin
    · rw [List.mem_singleton.mp hin]

/-- Helper: `dictInsert` preserves key uniqueness. -/
theorem dictInsert_keysNodup (d : List (String × Backend)) (b : Backend)
    (h2 : (d.map Prod.fst).Nodup) :
    ((dictInsert d (backendTag b) b).map Prod.fst).Nodup := by
  unfold dictInsert
  by_cases hany : d.any (fun p => decide (p.1 = backendTag b)) = true
  · rw [if_pos hany]
    have hmap : ∀ (l : List (String × Backend)),
        (l.map (fun p => if p.1 = backendTag b then (backendTag b, b) else p)).map
          Prod.fst = l.map Prod.fst := by
      intro l
      induction l with
      | nil => rfl
      | cons p rest ih =>
        by_cases hk : p.1 = backendTag b
        · simp [hk, ih]
        · simp [hk, ih]
    rw [hmap]
    exact h2
  · rw [if_neg hany, List.map_append, List.nodup_append]
    refine ⟨h2, List.nodup_singleton _, ?_⟩
    intro a ha hb
    have hb' : a = backendTag b := by simpa using hb
    subst hb'
    rcases List.mem_map.mp ha with ⟨q, hq, hqeq⟩
    exact hany (List.any_eq_true.mpr ⟨q, hq, decide_eq_true hqeq⟩)

/-- Helper: the backends dict built by the constructor has tag-matching
keys and no duplicate key. -/
theorem backendsDict_inv (bs : List Backend) :
    (∀ kv ∈ backendsDict bs, kv.1 = backendTag kv.2) ∧
    ((backendsDict bs).map Prod.fst).Nodup := by
  have hstep : ∀ (l : List Backend) (d : List (String × Backend)),
      (∀ kv ∈ d, kv.1 = backendTag kv.2) → (d.map Prod.fst).Nodup →
      (∀ kv ∈ l.foldl (fun a b => dictInsert a (backendTag b) b) d,
        kv.1 = backendTag kv.2) ∧
      ((l.foldl (fun a b => dictInsert a (backendTag b) b) d).map Prod.fst).Nodup := by
    intro l
    induction l with
    | nil => intro d h1 h2; exact ⟨h1, h2⟩
    | cons b rest ih =>
      intro d h1 h2
      simp only [List.foldl_cons]
      exact ih (dictInsert d (backendTag b) b)
        (dictInsert_keysMatch d b h1) (dictInsert_keysNodup d b h2)
  exact hstep bs [] (by intro kv h; cases h) List.nodup_nil

/-- Helper: folding the values of a tag-keyed, key-unique dict back
through `dictInsert` reproduces the dict. -/
theorem backendsDict_of_values (d : List (String × Backend)) :
    ∀ acc, (∀ kv ∈ acc ++ d, kv.1 = backendTag kv.2) →
    ((acc ++ d).map Prod.fst).Nodup →
    (d.map Prod.snd).foldl (fun a b => dictInsert a (backendTag b) b) acc =
      acc ++ d := by
  induction d with
  | nil => intro acc _ _; simp
  | cons kv rest ih =>
    intro acc h1 h2
    rcases kv with ⟨k, v⟩
    have hk : k = backendTag v := h1 (k, v) (by simp)
    subst hk
    have hnotin : ¬ (acc.any (fun p => decide (p.1 = backendTag v)) = true) := by
      intro hc
      rcases List.any_eq_true.mp hc with ⟨q, hq, hqeq⟩
      have hqk : q.1 = backendTag v := of_decide_eq_true hqeq
      have hmem1 : backendTag v ∈ acc.map Prod.fst := by
        rw [← hqk]
        exact List.mem_map_of_mem Prod.fst hq
      rw [List.map_append, List.nodup_append] at h2
      exact h2.2.2 hmem1 (by simp)
    have hins : dictInsert acc (backendTag v) v = acc ++ [(backendTag v, v)] := by
      unfold dictInsert
      rw [if_neg hnotin]
    have hre : (acc ++ [(backendTag v, v)]) ++ rest =
        acc ++ ((backendTag v, v) :: rest) := by simp
    simp only [List.map_cons, List.foldl_cons, hins]
    rw [ih (acc ++ [(backendTag v, v)]) (by rw [hre]; exact h1)
      (by rw [hre]; exact h2), hre]

/-- Helper: rebuilding the backends dict from its own values is the
identity — `from_dict(to_dict)` reproduces the same dict. -/
theorem backendsDict_rebuild (bs : List Backend) :
    backendsDict ((backendsDict bs).map Prod.snd) = backendsDict bs := by
  have hinv := backendsDict_inv bs
  have h := backendsDict_of_values (backendsDict bs) []
    (by simpa using hinv.1) (by simpa using hinv.2)
  simpa [backendsDict] using h

/-- Helper: one serialized backend entry parses back to its backend. -/
theorem parseBackendEntry_entry (k : String) (v : Backend)
    (hk : k = backendTag v) :
    parseBackendEntry
      (JValue.obj [("type", JValue.str k), ("params", backendParams v)]) =
      some v := by
  subst hk
  show backend_from_dict (backendTag v) (backendParams v) = some v
  exact backend_from_dict_tag v

/-- Helper: the serialized backends array parses back to the dict's
values. -/
theorem mapMO_backend_entries (d : List (String × Backend))
    (h : ∀ kv ∈ d, kv.1 = backendTag kv.2) :
    mapMO parseBackendEntry (d.map (fun kv =>
      JValue.obj [("type", JValue.str kv.1), ("params", backendParams kv.2)])) =
      some (d.map Prod.snd) := by
  induction d with
  | nil => rfl
  | cons kv rest ih =>
    have hone := parseBackendEntry_entry kv.1 kv.2 (h kv (by simp))
    simp only [List.map_cons, mapMO, hone, Option.some_bind,
      ih (fun g hg => h g (List.mem_cons.mpr (Or.inr hg)))]

/-- Helper: `MIMIC.from_dict (MIMIC.to_dict t)` succeeds for any
well-formed tool and reproduces a tool with identical `to_dict`. -/
theorem mimic_roundtrip (t : MimicTool) (h : mimicWF t) :
    mimic_from_dict (mimic_to_dict t) =
      some (MimicTool.mk t.backendKey ((backendsDict t.backends).map Prod.snd)) ∧
    mimic_to_dict
      (MimicTool.mk t.backendKey ((backendsDict t.backends).map Prod.snd)) =
      mimic_to_dict t := by
  have hinv := backendsDict_inv t.backends
  have hreb := backendsDict_rebuild t.backends
  constructor
  · have hgoal : mimic_from_dict (mimic_to_dict t) =
        (mapMO parseBackendEntry ((backendsDict t.backends).map (fun kv =>
          JValue.obj [("type", JValue.str kv.1),
            ("params", backendParams kv.2)]))).bind
          (fun blist =>
            if (backendsDict blist).any (fun p => decide (p.1 = t.backendKey)) then
              some (MimicTool.mk t.backendKey blist)
            else none) := rfl
    rw [hgoal, mapMO_backend_entries (backendsDict t.backends) hinv.1]
    simp only [Option.some_bind, hreb]
    have h' : ((backendsDict t.backends).any
        (fun p => decide (p.1 = t.backendKey))) = true := h
    rw [if_pos h']
  · simp only [mimic_to_dict, hreb]

/-- Helper: the serialized tools array parses back to tools with the same
serialized parameters. -/
theorem mapMO_tool_entries (ts : List MimicTool) (h : ∀ t ∈ ts, mimicWF t) :
    ∃ ts', mapMO parseToolEntry (ts.map toolEntryJ) = some ts' ∧
      ts'.map mimic_to_dict = ts.map mimic_to_dict := by
  induction ts with
  | nil => exact ⟨[], rfl, rfl⟩
  | cons t rest ih =>
    rcases ih (fun g hg => h g (List.mem_cons.mpr (Or.inr hg))) with ⟨ts', hts', hmap⟩
    have ht := mimic_roundtrip t (h t (List.mem_cons.mpr (Or.inl rfl)))
    have hone : parseToolEntry (toolEntryJ t) =
        some (MimicTool.mk t.backendKey ((backendsDict t.backends).map Prod.snd)) := by
      show mimic_from_dict (mimic_to_dict t) = _
      exact ht.1
    refine ⟨MimicTool.mk t.backendKey ((backendsDict t.backends).map Prod.snd) :: ts',
      ?_, ?_⟩
    · simp only [List.map_cons, mapMO, hone, hts', Option.some_bind]
    · simp only [List.map_cons, hmap, ht.2]

/-- C3: for every built pipeline (valid log level, well-formed tools),
`save` succeeds, `load` of the saved document succeeds, the loaded
config's log level and env vars equal the original's, every tool's
serialized parameters (backend_key and backend type/params entries)
round-trip unchanged, and the loaded pipeline is marked built. -/
theorem m3_save_load_roundtrip (p : M3Pipeline) (hb : p.built = true)
    (hlog : validLogLevel p.config.logLevel = true)
    (hwf : ∀ t ∈ p.tools, mimicWF t) :
    ∃ (j : JValue) (p' : M3Pipeline),
      m3_save p = some j ∧ m3_load j = some p' ∧
      p'.config.logLevel = p.config.logLevel ∧
      p'.config.envVars = p.config.envVars ∧
      p'.tools.map mimic_to_dict = p.tools.map mimic_to_dict ∧
      p'.built = true := by
  rcases mapMO_tool_entries p.tools hwf with ⟨ts', hts', hmap⟩
  refine ⟨JValue.obj [("config", config_to_dict p.config),
      ("tools", JValue.arr (p.tools.map toolEntryJ))],
    M3Pipeline.mk p.config ts' true, ?_, ?_, rfl, rfl, hmap, rfl⟩
  · simp [m3_save, hb]
  · have hload : m3_load (JValue.obj [("config", config_to_dict p.config),
        ("tools", JValue.arr (p.tools.map toolEntryJ))]) =
        (config_from_dict (config_to_dict p.config)).bind fun c =>
        (mapMO parseToolEntry (p.tools.map toolEntryJ)).bind fun tools =>
        some (M3Pipeline.mk c tools true) := rfl
    rw [hload, config_roundtrip p.config hlog]
    simp only [Option.some_bind]
    rw [hts']
    rfl

/-- C3 witness: the theorem applied to a concrete built pipeline holding
one MIMIC tool over a SQLite backend. -/
theorem m3_save_load_roundtrip_witness :
    ∃ (j : JValue) (p' : M3Pipeline),
      m3_save (M3Pipeline.mk (M3ConfigModel.mk "INFO" [("M3_BACKEND", "sqlite")])
        [MimicTool.mk "sqlite" [Backend.sqlite "/data/mimic.db"]] true) = some j ∧
      m3_load j = some p' ∧
      p'.config.logLevel = "INFO" ∧
      p'.config.envVars = [("M3_BACKEND", "sqlite")] ∧
      p'.tools.map mimic_to_dict =
        [MimicTool.mk "sqlite" [Backend.sqlite "/data/mimic.db"]].map mimic_to_dict ∧
      p'.built = true :=
  m3_save_load_roundtrip
    (M3Pipeline.mk (M3ConfigModel.mk "INFO" [("M3_BACKEND", "sqlite")])
      [MimicTool.mk "sqlite" [Backend.sqlite "/data/mimic.db"]] true)
    rfl (by decide)
    (by
      intro t ht
      rw [List.mem_singleton] at ht
      subst ht
      exact rfl)

/-! ## Theorems for claim C5 (view naming) -/

/-- Helper: a list is a prefix of itself followed by anything. -/
theorem isPrefixL_append_self (s t : List Char) :
    isPrefixL s (s ++ t) = true := by
  induction s with
  | nil => rfl
  | cons c cs ih => simp [isPrefixL, ih]

/-- Helper: taking the length of the left part of an append. -/
theorem take_length_append (xs ys : List Char) :
    (xs ++ ys).take xs.length = xs := by
  induction xs with
  | nil => rfl
  | cons c cs ih => simp [ih]

/-- Helper: dropping a suffix that is literally there. -/
theorem dropSuffixL_append (suf xs : List Char) :
    dropSuffixL suf (xs ++ suf) = xs := by
  have hsuf : isSuffixL suf (xs ++ suf) = true := by
    unfold isSuffixL
    rw [List.reverse_append]
    exact isPrefixL_append_self suf.reverse xs.reverse
  unfold dropSuffixL
  rw [hsuf]
  simp only [if_true, List.length_append, Nat.add_sub_cancel]
  exact take_length_append xs suf

/-- Helper: the last dot of `B ++ ".parquet"` is the appended one. -/
theorem lastDotIdx_append_parquet (B : List Char) :
    lastDotIdx (B ++ ".parquet".data) = some B.length := by
  induction B with
  | nil => decide
  | cons c cs ih => simp [lastDotIdx, ih]

/-- Helper: `pathlib` stem of `B ++ ".parquet"` is `B` for nonempty `B`. -/
theorem pathStem_parquet (B : List Char) (hB : B ≠ []) :
    pathStem (B ++ ".parquet".data) = B := by
  unfold pathStem
  rw [lastDotIdx_append_parquet]
  have h0 : 0 < B.length := List.length_pos.mpr hB
  have h1 : B.length < (B ++ ".parquet".data).length - 1 := by
    rw [List.length_append]
    have h8 : (".parquet".data).length = 8 := rfl
    rw [h8]
    omega
  simp only [h0, h1, and_self, if_true]
  exact take_length_append B ".parquet".data

/-- C5: for a Parquet file at relative path `A/B.parquet`, the name of
the view registered by `_create_duckdb_with_views` coincides with the
specification's rule (lowercase the parts, join with '_', drop the
`.parquet` suffix, replace '-' and '.' with '_'); in particular
`hosp/admissions.parquet` yields `hosp_admissions`, and upper-case
variants of the path produce the same case-folded name. -/
theorem duckdb_view_name_matches_spec (A B : List Char)
    (hA : A ≠ ['.']) (hB0 : B ≠ []) (hBdot : B ≠ ['.']) :
    duckdb_view_name [A] (B ++ ".parquet".data) =
      spec_view_name [A] (B ++ ".parquet".data) ∧
    duckdb_view_name ["hosp".data] "admissions.parquet".data =
      "hosp_admissions".data ∧
    duckdb_view_name ["HOSP".data] "Admissions.parquet".data =
      "hosp_admissions".data := by
  refine ⟨?_, by decide, by decide⟩
  have hstem : pathStem (B ++ ".parquet".data) = B := pathStem_parquet B hB0
  have hlhs : duckdb_view_name [A] (B ++ ".parquet".data) =
      cleanPart A ++ '_' :: cleanPart B := by
    unfold duckdb_view_name
    rw [hstem]
    have hfA : decide (A ≠ ['.']) = true := decide_eq_true hA
    have hfB : decide (B ≠ ['.']) = true := decide_eq_true hBdot
    simp [List.filter, hfA, hfB, joinUnderscoreL]
  have hrhs : spec_view_name [A] (B ++ ".parquet".data) =
      cleanPart A ++ '_' :: cleanPart B := by
    unfold spec_view_name
    have h2 : pyLower (B ++ ".parquet".data) = pyLower B ++ ".parquet".data := by
      show List.map Char.toLower (B ++ ".parquet".data) =
        List.map Char.toLower B ++ ".parquet".data
      rw [List.map_append]
      congr 1
    have h1 : ([A] ++ [B ++ ".parquet".data]).map pyLower =
        [pyLower A, pyLower (B ++ ".parquet".data)] := rfl
    have h3 : joinUnderscoreL [pyLower A, pyLower B ++ ".parquet".data] =
        (pyLower A ++ '_' :: pyLower B) ++ ".parquet".data := by
      show pyLower A ++ '_' :: (pyLower B ++ ".parquet".data) =
        (pyLower A ++ '_' :: pyLower B) ++ ".parquet".data
      simp
    rw [h1, h2, h3, dropSuffixL_append]
    rw [List.map_append, List.map_cons]
    have hrepl : replDashDot '_' = '_' := rfl
    rw [hrepl]
    rfl
  rw [hlhs, hrhs]

/-- C5 witness: the theorem applied at the concrete path parts "hosp" and
"admissions". -/
theorem duckdb_view_name_matches_spec_witness :
    duckdb_view_name ["hosp".data] ("admissions".data ++ ".parquet".data) =
      spec_view_name ["hosp".data] ("admissions".data ++ ".parquet".data) ∧
    duckdb_view_name ["hosp".data] "admissions.parquet".data =
      "hosp_admissions".data :=
  ⟨(duckdb_view_name_matches_spec "hosp".data "admissions".data
      (by decide) (by decide) (by decide)).1,
   (duckdb_view_name_matches_spec "hosp".data "admissions".data
      (by decide) (by decide) (by decide)).2.1⟩

/-! ## Theorems for claim C6 (the ETL conversion loop) -/

/-- Helper: the ETL loop attempts every file in order. -/
theorem etlLoop_attempted (files : List (String × Bool)) :
    (etlLoop files).1 = files.map Prod.fst := by
  induction files with
  | nil => rfl
  | cons f fs ih => simp [etlLoop, ih]

/-- Helper: the loaded count never exceeds the number of files. -/
theorem etlLoop_count_le (files : List (String × Bool)) :
    (etlLoop files).2.1 ≤ files.length := by
  induction files with
  | nil => simp [etlLoop]
  | cons f fs ih =>
    have hle : (if f.2 then 1 else 0) ≤ 1 := by split <;> omega
    have hunf : (etlLoop (f :: fs)).2.1 =
        (if f.2 then 1 else 0) + (etlLoop fs).2.1 := rfl
    rw [hunf, List.length_cons]
    omega

/-- Helper: all files loaded iff every conversion succeeded. -/
theorem etlLoop_count_eq_iff (files : List (String × Bool)) :
    (etlLoop files).2.1 = files.length ↔ ∀ f ∈ files, f.2 = true := by
  induction files with
  | nil => simp [etlLoop]
  | cons f fs ih =>
    have hunf : (etlLoop (f :: fs)).2.1 =
        (if f.2 then 1 else 0) + (etlLoop fs).2.1 := rfl
    rw [hunf, List.length_cons]
    by_cases hf : f.2
    · rw [if_pos hf]
      constructor
      · intro h g hg
        rcases List.mem_cons.mp hg with rfl | hg'
        · exact hf
        · exact (ih.mp (by omega)) g hg'
      · intro h
        have hh := ih.mpr (fun g hg => h g (List.mem_cons.mpr (Or.inr hg)))
        omega
    · rw [if_neg hf]
      constructor
      · intro h
        have hle := etlLoop_count_le fs
        omega
      · intro h
        exact absurd (h f (List.mem_cons.mpr (Or.inl rfl))) hf

/-- C6 counterexample: with two shards of which the first fails to
convert, the loop still attempts the second shard (so remaining work is
not cancelled), while the stage reports failure — the claim that no
further shards are processed after the first failure is false. -/
theorem etl_counterexample :
    (etl_csv_collection_to_sqlite
      [("hosp/a.csv.gz", false), ("hosp/b.csv.gz", true)]).attempted =
      ["hosp/a.csv.gz", "hosp/b.csv.gz"] ∧
    "hosp/b.csv.gz" ∈ (etl_csv_collection_to_sqlite
      [("hosp/a.csv.gz", false), ("hosp/b.csv.gz", true)]).attempted ∧
    (etl_csv_collection_to_sqlite
      [("hosp/a.csv.gz", false), ("hosp/b.csv.gz", true)]).ok = false := by
  refine ⟨rfl, by decide, rfl⟩

/-- C6 (amended): a conversion failure does not cancel the remaining
work — the loop attempts every shard regardless of earlier failures — and
the stage reports success to the caller iff the file list is nonempty and
every shard converted; hence any single failure makes the stage report
failure, after processing everything. -/
theorem etl_processes_all_and_reports (files : List (String × Bool)) :
    (etl_csv_collection_to_sqlite files).attempted = files.map Prod.fst ∧
    ((etl_csv_collection_to_sqlite files).ok = true ↔
      files ≠ [] ∧ ∀ f ∈ files, f.2 = true) := by
  cases files with
  | nil => simp [etl_csv_collection_to_sqlite]
  | cons f fs =>
    have hne : ((f :: fs : List (String × Bool)).isEmpty) = false := rfl
    constructor
    · simp [etl_csv_collection_to_sqlite, hne, etlLoop_attempted]
    · simp only [etl_csv_collection_to_sqlite, hne, Bool.false_eq_true,
        if_false, beq_iff_eq]
      rw [etlLoop_count_eq_iff]
      simp

/-! ## Theorems for claims C4 and C8 (the rate limiter) -/

/-- Helper: reading back the subject just written. -/
theorem cacheGet_cacheSet_self (c : RateCache) (sub : String) (l : List ℚ) :
    cacheGet (cacheSet c sub l) sub = l := by
  induction c with
  | nil => simp [cacheGet, cacheSet]
  | cons p rest ih =>
    by_cases h : p.1 = sub
    · simp [cacheGet, cacheSet, h]
    · simp [cacheGet, cacheSet, h, ih]

/-- Helper: writing one subject leaves every other subject's list alone. -/
theorem cacheGet_cacheSet_ne (c : RateCache) (sub s : String) (l : List ℚ)
    (h : s ≠ sub) : cacheGet (cacheSet c sub l) s = cacheGet c s := by
  have hns : sub ≠ s := fun hc => h hc.symm
  induction c with
  | nil => simp [cacheGet, cacheSet, hns]
  | cons p rest ih =>
    rcases p with ⟨ps, pl⟩
    by_cases hp : ps = sub
    · subst hp
      simp [cacheGet, cacheSet, hns]
    · simp [cacheGet, cacheSet, hp, ih]

/-- Helper: a run of requests for one subject whose timestamps (together
with the timestamps already recorded) all lie inside one window, and
whose total count stays within the limit, passes every check and appends
every timestamp. -/
theorem rateRun_single_window (sub : String) :
    ∀ (ts : List ℚ) (c : RateCache),
    (∀ x ∈ cacheGet c sub ++ ts, ∀ y ∈ cacheGet c sub ++ ts,
      x - rate_limit_window < y) →
    (cacheGet c sub).length + ts.length ≤ rate_limit_requests →
    rateRunResults c (ts.map (fun t => (sub, t))) = List.replicate ts.length true ∧
    cacheGet (rateRunCache c (ts.map (fun t => (sub, t)))) sub = cacheGet c sub ++ ts := by
  intro ts
  induction ts with
  | nil => intro c _ _; simp [rateRunResults, rateRunCache]
  | cons t rest ih =>
    intro c hwin hcap
    have hprune : pruneRequests t (cacheGet c sub) = cacheGet c sub := by
      apply List.filter_eq_self.mpr
      intro x hx
      have hlt : t - rate_limit_window < x :=
        hwin t (by simp) x (List.mem_append.mpr (Or.inl hx))
      exact decide_eq_true hlt
    have hlt100 : ¬ rate_limit_requests ≤ (pruneRequests t (cacheGet c sub)).length := by
      rw [hprune]
      simp only [List.length_cons] at hcap
      omega
    have hstep : rateStep c sub t =
        (true, cacheSet c sub (cacheGet c sub ++ [t])) := by
      rw [hprune] at hlt100
      simp [rateStep, check_rate_limit, check_rate_limit_list, hprune, hlt100]
    have hget : cacheGet (cacheSet c sub (cacheGet c sub ++ [t])) sub =
        cacheGet c sub ++ [t] := cacheGet_cacheSet_self _ _ _
    have hassoc : (cacheGet c sub ++ [t]) ++ rest = cacheGet c sub ++ (t :: rest) := by
      simp
    have ihc := ih (cacheSet c sub (cacheGet c sub ++ [t]))
      (by
        intro x hx y hy
        rw [hget, hassoc] at hx hy
        exact hwin x hx y hy)
      (by
        rw [hget]
        simp only [List.length_append, List.length_cons, List.length_nil] at hcap ⊢
        omega)
    refine ⟨?_, ?_⟩
    · simp only [List.map_cons, rateRunResults, hstep]
      rw [ihc.1]
      simp [List.replicate_succ]
    · simp only [List.map_cons, rateRunCache, hstep]
      rw [ihc.2, hget, hassoc]

/-- Helper: starting from a cache whose lists are all within the limit,
any request sequence keeps every subject's stored list within the limit. -/
theorem rateRunCache_length_le :
    ∀ (reqs : List (String × ℚ)) (c : RateCache),
    (∀ s, (cacheGet c s).length ≤ rate_limit_requests) →
    ∀ s, (cacheGet (rateRunCache c reqs) s).length ≤ rate_limit_requests := by
  intro reqs
  induction reqs with
  | nil => intro c hc s; simpa [rateRunCache] using hc s
  | cons r rest ih =>
    intro c hc s
    rcases r with ⟨s0, t⟩
    by_cases hfull :
        rate_limit_requests ≤ (pruneRequests t (cacheGet c s0)).length
    · have hstep : rateStep c s0 t = (false, c) := by
        simp [rateStep, check_rate_limit, check_rate_limit_list, hfull]
      simpa [rateRunCache, hstep] using ih c hc s
    · have hstep : rateStep c s0 t =
          (true, cacheSet c s0 (pruneRequests t (cacheGet c s0) ++ [t])) := by
        simp [rateStep, check_rate_limit, check_rate_limit_list, hfull]
      have hc' : ∀ s', (cacheGet
          (cacheSet c s0 (pruneRequests t (cacheGet c s0) ++ [t])) s').length ≤
          rate_limit_requests := by
        intro s'
        by_cases hs : s' = s0
        · subst hs
          rw [cacheGet_cacheSet_self]
          simp only [List.length_append, List.length_cons, List.length_nil]
          omega
        · rw [cacheGet_cacheSet_ne _ _ _ _ hs]
          exact hc s'
      simpa [rateRunCache, hstep] using ih _ hc' s

/-- C4: with the default limit of 100 requests per 3600-second window, a
fixed subject's first 100 validations inside one window all pass, the
101st within the window is rejected with the rate-limit error, and from
any cache state in which every recorded timestamp of the subject is older
than the window a new validation succeeds. -/
theorem rate_limit_window_behaviour (sub : String) (ts : List ℚ) (tN : ℚ)
    (hlen : ts.length = 100)
    (hwin : ∀ x ∈ ts ++ [tN], ∀ y ∈ ts ++ [tN], x - rate_limit_window < y) :
    rateRunResults [] (ts.map (fun t => (sub, t))) = List.replicate 100 true ∧
    check_rate_limit (rateRunCache [] (ts.map (fun t => (sub, t)))) sub tN =
      Except.error "Rate limit exceeded" ∧
    (∀ (c : RateCache) (now : ℚ),
      (∀ x ∈ cacheGet c sub, x ≤ now - rate_limit_window) →
      ∃ c', check_rate_limit c sub now = Except.ok c') := by
  have hbase : cacheGet ([] : RateCache) sub = [] := rfl
  have hrun := rateRun_single_window sub ts ([] : RateCache)
    (by
      intro x hx y hy
      rw [hbase, List.nil_append] at hx hy
      exact hwin x (List.mem_append.mpr (Or.inl hx)) y (List.mem_append.mpr (Or.inl hy)))
    (by rw [hbase]; simp [hlen, rate_limit_requests])
  have hfinal : cacheGet (rateRunCache [] (ts.map (fun t => (sub, t)))) sub = ts := by
    rw [hrun.2, hbase, List.nil_append]
  refine ⟨by rw [hrun.1, hlen], ?_, ?_⟩
  · have hprune : pruneRequests tN ts = ts := by
      apply List.filter_eq_self.mpr
      intro x hx
      have hlt : tN - rate_limit_window < x :=
        hwin tN (by simp) x (List.mem_append.mpr (Or.inl hx))
      exact decide_eq_true hlt
    have hfull : rate_limit_requests ≤ (pruneRequests tN ts).length := by
      rw [hprune, hlen]
      decide
    simp [check_rate_limit, check_rate_limit_list, hfinal, hfull]
  · intro c now hold
    have hprune : pruneRequests now (cacheGet c sub) = [] := by
      apply List.filter_eq_nil_iff.mpr
      intro x hx
      have := hold x hx
      simp only [decide_eq_true_eq]
      linarith
    refine ⟨cacheSet c sub [now], ?_⟩
    simp [check_rate_limit, check_rate_limit_list, hprune, rate_limit_requests]

/-- C4 witness: the theorem applied to 100 requests at time 0 for subject
"alice" followed by a 101st request, also at time 0. -/
theorem rate_limit_window_behaviour_witness :
    rateRunResults []
      ((List.replicate 100 (0 : ℚ)).map (fun t => ("alice", t))) =
      List.replicate 100 true ∧
    check_rate_limit
      (rateRunCache [] ((List.replicate 100 (0 : ℚ)).map (fun t => ("alice", t))))
      "alice" 0 = Except.error "Rate limit exceeded" := by
  have h := rate_limit_window_behaviour "alice" (List.replicate 100 (0 : ℚ)) 0
    (by simp)
    (by
      intro x hx y hy
      have hx0 : x = 0 := by
        rcases List.mem_append.mp hx with h' | h'
        · exact List.eq_of_mem_replicate h'
        · simpa using h'
      have hy0 : y = 0 := by
        rcases List.mem_append.mp hy with h' | h'
        · exact List.eq_of_mem_replicate h'
        · simpa using h'
      rw [hx0, hy0]
      norm_num [rate_limit_window])
  exact ⟨h.1, h.2.1⟩

/-- C8: a rejected request consumes no quota — on rejection the cache is
unchanged; a timestamp is appended only when the pruned list is strictly
below the limit; and starting from the empty cache every subject's stored
list always stays within the limit. -/
theorem rate_limit_reject_no_quota (c : RateCache) (sub : String) (now : ℚ) :
    (∀ e : String, check_rate_limit c sub now = Except.error e →
      (rateStep c sub now).2 = c) ∧
    (∀ c' : RateCache, check_rate_limit c sub now = Except.ok c' →
      (pruneRequests now (cacheGet c sub)).length < rate_limit_requests ∧
      cacheGet c' sub = pruneRequests now (cacheGet c sub) ++ [now]) ∧
    (∀ reqs : List (String × ℚ), ∀ s : String,
      (cacheGet (rateRunCache [] reqs) s).length ≤ rate_limit_requests) := by
  refine ⟨?_, ?_, ?_⟩
  · intro e he
    simp [rateStep, he]
  · intro c' hc'
    by_cases hfull : rate_limit_requests ≤ (pruneRequests now (cacheGet c sub)).length
    · simp [check_rate_limit, check_rate_limit_list, hfull] at hc'
    · have : c' = cacheSet c sub (pruneRequests now (cacheGet c sub) ++ [now]) := by
        simp [check_rate_limit, check_rate_limit_list, hfull] at hc'
        exact hc'.symm
      subst this
      exact ⟨by omega, cacheGet_cacheSet_self _ _ _⟩
  · intro reqs s
    exact rateRunCache_length_le reqs [] (by intro s'; simp [cacheGet]) s

/-! ## Theorem for claim C7 (result formatting of both backends) -/

/-- C7: for both the embedded SQLite backend and the cloud BigQuery
backend, an empty result set formats to exactly "No results found", and a
result set of more than 50 rows formats to the rendering of its first 50
rows followed by the line "... (N total rows, showing first 50)" with N
the total row count. -/
theorem format_result_empty_and_truncation
    (render : List (List String) → String) (df : List (List String)) :
    (df = [] →
      sqlite_format_result render df = "No results found" ∧
      bigquery_format_result render df = "No results found") ∧
    (50 < df.length →
      sqlite_format_result render df =
        render (df.take 50) ++ "\n... (" ++ toString df.length ++ " total rows, showing first 50)" ∧
      bigquery_format_result render df =
        render (df.take 50) ++ "\n... (" ++ toString df.length ++ " total rows, showing first 50)") := by
  constructor
  · rintro rfl
    exact ⟨rfl, rfl⟩
  · intro h50
    have hne : ¬ df.isEmpty := by
      cases df with
      | nil => simp at h50
      | cons a as => simp [List.isEmpty]
    constructor
    · simp [sqlite_format_result, hne, h50]
    · simp [bigquery_format_result, hne, h50]

/-! ## Theorem for claim C9 (`get_icu_stays` limit and patient filtering) -/

/-- C9: a limit outside [1, 1000] yields the error string before any query
is issued; a provided nonzero patient id issues the subject_id-filtered
query with no LIMIT clause, ignoring the limit argument; patient id 0 or
None takes the unfiltered LIMIT path. -/
theorem get_icu_stays_paths (patientId : Option Int) (limit : Int) (t : String) :
    ((limit < 1 ∨ 1000 < limit) →
      get_icu_stays patientId limit t = Except.error invalidLimitMsg) ∧
    (∀ p : Int, patientId = some p → p ≠ 0 → 1 ≤ limit → limit ≤ 1000 →
      get_icu_stays patientId limit t =
        Except.ok ("SELECT * FROM " ++ t ++ " WHERE subject_id = " ++ toString p) ∧
      ∀ limit2 : Int, 1 ≤ limit2 → limit2 ≤ 1000 →
        get_icu_stays patientId limit2 t = get_icu_stays patientId limit t) ∧
    ((patientId = none ∨ patientId = some 0) → 1 ≤ limit → limit ≤ 1000 →
      get_icu_stays patientId limit t =
        Except.ok ("SELECT * FROM " ++ t ++ " LIMIT " ++ toString limit)) := by
  refine ⟨?_, ?_, ?_⟩
  · intro hbad
    have hv : validate_limit limit = false := by
      rcases hbad with h | h <;> simp [validate_limit] <;> omega
    simp [get_icu_stays, hv]
  · rintro p rfl hp h1 h2
    have hv : validate_limit limit = true := by
      simp [validate_limit]; omega
    constructor
    · simp [get_icu_stays, hv, hp]
    · intro limit2 h1' h2'
      have hv' : validate_limit limit2 = true := by
        simp [validate_limit]; omega
      simp [get_icu_stays, hv, hv', hp]
  · rintro (rfl | rfl) h1 h2 <;>
      · have hv : validate_limit limit = true := by
          simp [validate_limit]; omega
        simp [get_icu_stays, hv]

/-- C9 witness: the theorem applied at patient id 42, limit 7 and, for the
error path, limit 0. -/
theorem get_icu_stays_paths_witness :
    get_icu_stays (some 42) 7 "icu_icustays" =
      Except.ok "SELECT * FROM icu_icustays WHERE subject_id = 42" ∧
    get_icu_stays (some 42) 999 "icu_icustays" = get_icu_stays (some 42) 7 "icu_icustays" ∧
    get_icu_stays (some 42) 0 "icu_icustays" = Except.error invalidLimitMsg ∧
    get_icu_stays none 7 "icu_icustays" =
      Except.ok "SELECT * FROM icu_icustays LIMIT 7" ∧
    get_icu_stays (some 0) 7 "icu_icustays" =
      Except.ok "SELECT * FROM icu_icustays LIMIT 7" := by
  refine ⟨?_, ?_, ?_, ?_, ?_⟩
  · exact ((get_icu_stays_paths (some 42) 7 "icu_icustays").2.1 42 rfl
      (by decide) (by decide) (by decide)).1
  · exact ((get_icu_stays_paths (some 42) 7 "icu_icustays").2.1 42 rfl
      (by decide) (by decide) (by decide)).2 999 (by decide) (by decide)
  · exact (get_icu_stays_paths (some 42) 0 "icu_icustays").1 (Or.inl (by decide))
  · exact (get_icu_stays_paths none 7 "icu_icustays").2.2 (Or.inl rfl)
      (by decide) (by decide)
  · exact (get_icu_stays_paths (some 0) 7 "icu_icustays").2.2 (Or.inr rfl)
      (by decide) (by decide)

/-! ## Theorem for claim C10 (`M3Config.get_env_var` resolution) -/

/-- C10: `get_env_var` never yields a missing value — a key absent from
the explicit map and the process environment with no default resolves to
the empty string (when not required), an explicit empty-string entry
counts as present and never raises, and an error occurs only when the
resolved value is None (absent everywhere, no default) with
`raise_if_missing` set. -/
theorem get_env_var_resolution (envVars osEnv : List (String × String))
    (key : String) (default : Option String) (raiseIfMissing : Bool) :
    (lookupStr envVars key = none → lookupStr osEnv key = none → default = none →
      raiseIfMissing = false →
      get_env_var envVars osEnv key default raiseIfMissing = Except.ok "") ∧
    (lookupStr envVars key = some "" →
      get_env_var envVars osEnv key default raiseIfMissing = Except.ok "") ∧
    (∀ e : String, get_env_var envVars osEnv key default raiseIfMissing = Except.error e →
      lookupStr envVars key = none ∧ lookupStr osEnv key = none ∧
        default = none ∧ raiseIfMissing = true) := by
  refine ⟨?_, ?_, ?_⟩
  · intro h1 h2 h3 h4
    simp [get_env_var, h1, h2, h3, h4]
  · intro h1
    simp [get_env_var, h1]
  · intro e he
    by_cases h1 : ∃ v, lookupStr envVars key = some v
    · rcases h1 with ⟨v, hv⟩
      simp [get_env_var, hv] at he
    · have h1' : lookupStr envVars key = none := by
        cases h : lookupStr envVars key with
        | none => rfl
        | some v => exact absurd ⟨v, h⟩ h1
      by_cases h2 : ∃ v, lookupStr osEnv key = some v
      · rcases h2 with ⟨v, hv⟩
        simp [get_env_var, h1', hv] at he
      · have h2' : lookupStr osEnv key = none := by
          cases h : lookupStr osEnv key with
          | none => rfl
          | some v => exact absurd ⟨v, h⟩ h2
        cases hd : default with
        | some v => simp [get_env_var, h1', h2', hd] at he
        | none =>
          cases hr : raiseIfMissing with
          | false => simp [get_env_var, h1', h2', hd, hr] at he
          | true => exact ⟨h1', h2', rfl, rfl⟩

end M3Spec
